import Mathlib

/-!
Verification of the parser and tree-walking evaluator of the bsharp-lang
repository (`src/parser.rs`, `src/executor.rs`), against its natural-language
specification.  The Rust code is shallowly embedded: the parser's
current/peek/lexer cursor becomes an explicit token-list state, the executor's
mutable `BTreeMap` environment becomes a lookup function threaded through the
statement executors, and `i32` arithmetic becomes `Int` with explicit two's
complement wrapping.  A Rust panic (division by zero, `unwrap` on a malformed
integer lexeme) is modelled as a distinguished fault constructor, kept apart
from the error values the Rust functions actually return.
-/

namespace BSharp

/-- Token kinds, following `token_kind.rs` as used by `parser.rs` (`DEFAULT`,
`EOF`, `EOL`, `IDENT`, `INT`, `CONST`, `PRINT`, `ASSIGN`, `PLUS`, `MINUS`,
`ASTERISK`, `SLASH`, `PERCENT`, `LPAREN`, `RPAREN`, `COMMA` all occur there).
The comparison and boolean operator kinds are listed in spec §3 (modelled from
the spec: `token_kind.rs` itself is not under `src/`); the parser has no arm
for them, so they fall into its catch-all branches. -/
inductive TokenKind where
  | DEFAULT | EOF | EOL | IDENT | INT | CONST | PRINT | ASSIGN
  | PLUS | MINUS | ASTERISK | SLASH | PERCENT
  | CMPEQ | CMPNE | CMPGT | CMPLT | CMPGE | CMPLE
  | OPAND | OPOR | OPXOR
  | LPAREN | RPAREN | COMMA
  deriving DecidableEq, Repr

/-- Token: `{kind, value}` (`token.rs`, as constructed in `parser.rs`). -/
structure Token where
  kind : TokenKind
  value : String
  deriving DecidableEq, Repr

/-- Binary operators of the AST (`ast.rs`; the executor spells them `ADD`,
`SUB`, `MUL`, `DIV`, `MOD`, `EQ`, `NE`, `GT`, `LT`, `LE`, `GE`, `AND`, `OR`,
`XOR`). -/
inductive BinaryOperator where
  | ADD | SUB | MUL | DIV | MOD
  | EQ | NE | GT | LT | LE | GE
  | AND | OR | XOR
  deriving DecidableEq, Repr

/-- Unary operators of the AST (`ast.rs`, as matched in `executor.rs`). -/
inductive UnaryOperator where
  | NEGATIVE | POSITIVE | NOT
  deriving DecidableEq, Repr

/-- Expressions (`ast.rs`, as built by `parser.rs` and walked by
`executor.rs`): identifier, `i32` literal, binary node, unary node.  The
`i32` payload is modelled as `Int`; `parse_integer` only produces values in
the `i32` range. -/
inductive Expression where
  | Identifier (name : String)
  | Integer (value : Int)
  | Binary (left : Expression) (operator : BinaryOperator) (right : Expression)
  | Unary (operator : UnaryOperator) (expression : Expression)
  deriving DecidableEq, Repr

/-- Statements.  The parser builds `ConstAssignment {identifier, expression}`,
`Print {arguments}` and `Empty` (`parser.rs`).  The executor consumes the
print statement through its generic named-call dispatch `execute_method` keyed
by the string "Print" (spec §9's statement-shape mismatch; `ast.rs` is not
under `src/`, so the parser-side constructor names are used here). -/
inductive Statement where
  | ConstAssignment (identifier : String) (expression : Expression)
  | Print (arguments : List Expression)
  | Empty
  deriving DecidableEq, Repr

/-- Program: ordered sequence of statements (`ast.rs`). -/
structure Program where
  statements : List Statement
  deriving DecidableEq, Repr

/-- Parse errors (`errors.rs` is not under `src/`; `parser.rs` constructs only
`Errors::TokenInvalid(token)`).  `Panic` models the Rust panic raised by
`parse_integer`'s `.unwrap()` when an INT lexeme's text is not a valid `i32`
(spec §4.1 calls this an invariant breach of the tokenizer contract, not a
recoverable parse error). -/
inductive Errors where
  | TokenInvalid (t : Token)
  | Panic
  deriving DecidableEq, Repr

/-- Runtime types of values (`object.rs`'s `RuntimeType`, as constructed in
`executor.rs`). -/
inductive RuntimeType where
  | Integer | Boolean | Undefined
  deriving DecidableEq, Repr

/-- Runtime values (`object.rs`'s `Object`, as used in `executor.rs`):
`Integer(i32)`, `Boolean(bool)`, `Undefined`. -/
inductive Object where
  | Integer (value : Int)
  | Boolean (value : Bool)
  | Undefined
  deriving DecidableEq, Repr

/-- Runtime errors the executor returns as `Err(...)` (`runtime_error.rs` is
not under `src/`; `executor.rs` constructs exactly these two). -/
inductive RuntimeError where
  | TypeMismatch (expected actual : RuntimeType)
  | UnknownMethod (name : String)
  deriving DecidableEq, Repr

/-- Outcome of an aborted evaluation: either a `RuntimeError` actually
returned as an `Err(...)` result by the Rust code, or a Rust panic (process
abort — `l / 0`, `l % 0` and `i32::MIN / -1` panic in Rust; they are never
converted into a returned error). -/
inductive Fault where
  | Error (e : RuntimeError)
  | Panic
  deriving DecidableEq, Repr

/-- type_of (the `TypeOf` trait impl used at `executor.rs:133-134`). -/
def Object.type_of : Object → RuntimeType
  | .Integer _ => .Integer
  | .Boolean _ => .Boolean
  | .Undefined => .Undefined

/-- Lower bound of `i32`. -/
def i32_min : Int := -(2 ^ 31)

/-- Two's-complement wrapping into the `i32` range, modelling Rust release
mode arithmetic on `i32` (no claim exercises overflow; debug builds would
panic instead). -/
def wrap32 (n : Int) : Int := (n + 2 ^ 31) % 2 ^ 32 - 2 ^ 31

/-- Executor state: the `variables: BTreeMap<String, Object>` field of
`Executor` (`executor.rs`), modelled as a lookup function — the executor only
uses keyed `get` and replacing `insert`, and iteration order is not
semantically significant (spec §3).  The field is named `vars` because
`variables` is a reserved word in Lean 4. -/
structure Executor where
  vars : String → Option Object

/-- Executor::new (`executor.rs:14-18`): empty variable map. -/
def Executor.new : Executor := ⟨fun _ => none⟩

/-- set_variable (`executor.rs:28-31`): `self.variables.insert(name, value)`,
a replacing insert. -/
def set_variable (ex : Executor) (name : String) (value : Object) : Executor :=
  ⟨fun n => if n = name then some value else ex.vars n⟩

/-- get_variable (`executor.rs:33-44`): keyed lookup. -/
def get_variable (ex : Executor) (name : String) : Option Object :=
  ex.vars name

/-- Modelled from the spec: the `Display` rendering used by
`println!("{}", evaluated)` (`object.rs`'s Display impl is not under `src/`).
Spec §6/§8: the print-like built-in emits one line per argument and integer
arguments print as their decimal text ("1", "2", "3"). -/
def Object.display : Object → String
  | .Integer n => toString n
  | .Boolean b => toString b
  | .Undefined => "Undefined"

/-- execute_expression (`executor.rs:91-168`): evaluates left before right,
both fully, then dispatches on the runtime-type pair and the operator.
Division and modulo translate Rust's `l / r` and `l % r` on `i32`: truncation
toward zero, panicking on a zero divisor and on the `i32::MIN / -1` overflow
(`Fault.Panic` — the Rust code returns no error for these). -/
def execute_expression (ex : Executor) : Expression → Except Fault Object
  | .Identifier name =>
    match get_variable ex name with
    | some value => .ok value
    | none => .ok .Undefined
  | .Integer value => .ok (.Integer value)
  | .Binary left operator right =>
    match execute_expression ex left with
    | .error e => .error e
    | .ok l =>
      match execute_expression ex right with
      | .error e => .error e
      | .ok r =>
        match l, r with
        | .Integer a, .Integer b =>
          match operator with
          | .ADD => .ok (.Integer (wrap32 (a + b)))
          | .SUB => .ok (.Integer (wrap32 (a - b)))
          | .MUL => .ok (.Integer (wrap32 (a * b)))
          | .DIV =>
            if b = 0 ∨ (a = i32_min ∧ b = -1) then .error .Panic
            else .ok (.Integer (a.tdiv b))
          | .MOD =>
            if b = 0 ∨ (a = i32_min ∧ b = -1) then .error .Panic
            else .ok (.Integer (a.tmod b))
          | .EQ => .ok (.Boolean (decide (a = b)))
          | .NE => .ok (.Boolean (decide (a ≠ b)))
          | .GT => .ok (.Boolean (decide (a > b)))
          | .LT => .ok (.Boolean (decide (a < b)))
          | .LE => .ok (.Boolean (decide (a ≥ b)))
          | .GE => .ok (.Boolean (decide (a ≤ b)))
          | _ => .error (.Error (.TypeMismatch .Integer .Boolean))
        | .Boolean a, .Boolean b =>
          match operator with
          | .AND => .ok (.Boolean (a && b))
          | .XOR => .ok (.Boolean (a || b))
          | .OR => .ok (.Boolean (a || b))
          | _ => .error (.Error (.TypeMismatch .Boolean .Integer))
        | a, b => .error (.Error (.TypeMismatch a.type_of b.type_of))
  | .Unary operator expression =>
    match execute_expression ex expression with
    | .error e => .error e
    | .ok evaluated =>
      match operator with
      | .NEGATIVE =>
        match evaluated with
        | .Integer n => .ok (.Integer (wrap32 (-n)))
        | _ => .error (.Error (.TypeMismatch .Integer .Integer))
      | .POSITIVE =>
        match evaluated with
        | .Integer n => .ok (.Integer n)
        | _ => .error (.Error (.TypeMismatch .Integer .Integer))
      | .NOT =>
        match evaluated with
        | .Boolean n => .ok (.Boolean (!n))
        | _ => .error (.Error (.TypeMismatch .Integer .Integer))

/-- The `for a in arguments` loop of `execute_method`'s "Print" arm
(`executor.rs:70-75`): evaluate each argument in order, emitting its display
text as one output line; the first evaluation error aborts the loop (lines
already printed stay printed). -/
def print_arguments (ex : Executor) : List Expression → Except Fault Object × List String
  | [] => (.ok .Undefined, [])
  | a :: rest =>
    match execute_expression ex a with
    | .error e => (.error e, [])
    | .ok evaluated =>
      let (r, out) := print_arguments ex rest
      (r, Object.display evaluated :: out)

/-- execute_method (`executor.rs:64-79`): named dispatch; "Print" runs the
print loop and returns `Undefined`, any other name is `UnknownMethod`.
The second component is the ordered standard-output lines. -/
def execute_method (ex : Executor) (identifier : String) (arguments : List Expression) :
    Except Fault Object × List String :=
  if identifier = "Print" then print_arguments ex arguments
  else (.error (.Error (.UnknownMethod identifier)), [])

/-- execute_const_assignment (`executor.rs:81-89`): evaluate the expression,
then store the value (on an evaluation fault `set_variable` is never reached,
so the environment is returned unchanged). -/
def execute_const_assignment (ex : Executor) (identifier : String) (expression : Expression) :
    Except Fault Object × Executor :=
  match execute_expression ex expression with
  | .error e => (.error e, ex)
  | .ok evaluated => (.ok evaluated, set_variable ex identifier evaluated)

/-- execute_statement (`executor.rs:46-62`): a `ConstAssignment` goes to
`execute_const_assignment` (the executor's `Declaration` and `Assignment` arms
both do exactly this), a print statement goes to `execute_method` keyed by
"Print" (spec §9's named-call dispatch), `Empty` yields `Undefined`. -/
def execute_statement (ex : Executor) : Statement → Except Fault Object × Executor × List String
  | .ConstAssignment identifier expression =>
    let (r, ex2) := execute_const_assignment ex identifier expression
    (r, ex2, [])
  | .Print arguments =>
    let (r, out) := execute_method ex "Print" arguments
    (r, ex, out)
  | .Empty => (.ok .Undefined, ex, [])

/-- The statement loop of `execute` (`executor.rs:19-26`): `r` starts as
`Undefined` and is replaced by each statement's value; the first fault stops
the run.  Output of all executed statements is concatenated in order. -/
def execute_statements (ex : Executor) (r : Object) :
    List Statement → Except Fault Object × Executor × List String
  | [] => (.ok r, ex, [])
  | s :: rest =>
    match execute_statement ex s with
    | (.ok v, ex2, out) =>
      let (res, ex3, out2) := execute_statements ex2 v rest
      (res, ex3, out ++ out2)
    | (.error e, ex2, out) => (.error e, ex2, out)

/-- execute (`executor.rs:19-26`). -/
def execute (ex : Executor) (program : Program) : Except Fault Object × Executor × List String :=
  execute_statements ex .Undefined program.statements

/-- The end-of-input token.  Modelled from the spec (the lexer is an external
collaborator, `lexer.rs` is not under `src/`): the tokenizer terminates the
stream with an end-of-input lexeme (spec §6), and pulling past it keeps
yielding end-of-input, which is what lets `parse_program` stop. -/
def eof_token : Token := ⟨.EOF, ""⟩

/-- Parser cursor state: the not-yet-consumed token stream.  `Parser::new`
(`parser.rs:16-31`) primes the two-token window with two `next_token` calls,
so `current_token` is the head of the stream and the `next_token` field is
the second element. -/
abbrev PState := List Token

/-- The parser's `current_token` field. -/
def current_token (ts : PState) : Token := ts.headD eof_token

/-- The parser's `next_token` field (the one-token lookahead). -/
def peek_token (ts : PState) : Token := ts.tail.headD eof_token

/-- The parser's `next_token()` method (`parser.rs:153-157`): consume
`current`, promote the lookahead. -/
def advance (ts : PState) : PState := ts.tail

/-- Decimal digit accumulator used to model Rust `str::parse`: consumes ASCII
digits left to right, failing on any non-digit. -/
def parse_digits (acc : Nat) : List Char → Option Nat
  | [] => some acc
  | c :: cs => if c.isDigit then parse_digits (acc * 10 + (c.toNat - 48)) cs else none

/-- parse_integer (`parser.rs:134-136`): `self.current_token.value.parse::<i32>()`.
Rust `str::parse::<i32>` accepts an optional sign followed by one or more
decimal digits, rejecting out-of-range values; `none` models the `Err` case,
whose `.unwrap()` panics. -/
def parse_integer (s : String) : Option Int :=
  let core : List Char → Option Int := fun cs =>
    match cs with
    | [] => none
    | _ => (parse_digits 0 cs).map (fun n => (n : Int))
  let val : Option Int :=
    match s.data with
    | '-' :: cs => (core cs).map (fun n => -n)
    | '+' :: cs => core cs
    | cs => core cs
  match val with
  | some n => if -(2 ^ 31) ≤ n ∧ n < 2 ^ 31 then some n else none
  | none => none

/-- Weakening of the consumption bound carried by a parse result (proof
plumbing only; no computational content beyond re-wrapping). -/
def relax {α : Type} {p q : PState → Prop} (h : ∀ ts, p ts → q ts) :
    Except Errors (α × { ts : PState // p ts }) →
    Except Errors (α × { ts : PState // q ts })
  | .error e => .error e
  | .ok (a, ⟨ts, hp⟩) => .ok (a, ⟨ts, h ts hp⟩)

mutual

/-- parse_expression (`parser.rs:80-106`): parse a primary (identifier,
integer literal, parenthesized group; anything else is `TokenInvalid` at the
current token), advance, then if the new current token is one of the five
arithmetic operators, parse the rest of the input as the right operand of a
binary node.  The result carries the remaining stream together with the fact
that at least one token was consumed, which grounds the recursion. -/
def parse_expression : (ts : PState) →
    Except Errors (Expression × { ts2 : PState // ts2.length < ts.length })
  | [] => .error (.TokenInvalid eof_token)
  | t :: rest =>
    match t.kind with
    | .IDENT => parse_expression_operator (.Identifier t.value) (t :: rest) (by simp)
    | .INT =>
      match parse_integer t.value with
      | some n => parse_expression_operator (.Integer n) (t :: rest) (by simp)
      | none => .error .Panic
    | .LPAREN =>
      match parse_grouped_expression (t :: rest) (by simp) with
      | .error e => .error e
      | .ok (e, ⟨ts1, h1, hne⟩) =>
        relax (fun ts3 h3 => Nat.lt_trans h3 h1) (parse_expression_operator e ts1 hne)
    | _ => .error (.TokenInvalid t)
termination_by ts => (ts.length, 1)
decreasing_by
  all_goals simp_wf
  all_goals first
    | exact Prod.Lex.right _ (by omega)
    | exact Prod.Lex.left _ _ (by simp only [List.length_cons] at *; omega)

/-- Lines 95-103 of parse_expression: the `self.next_token()` after the
primary, followed by the dispatch on the five arithmetic operator kinds
(factored out of `parse_expression` so the same continuation serves all three
primary forms; it is inline in the Rust source). -/
def parse_expression_operator (e : Expression) (ts : PState) (h : ts ≠ []) :
    Except Errors (Expression × { ts2 : PState // ts2.length < ts.length }) :=
  match (current_token (advance ts)).kind with
  | .PLUS => relax (fun ts2 h2 => by
      simp only [advance, List.length_tail] at h2; omega) (parse_binary_operation e .ADD (advance ts))
  | .MINUS => relax (fun ts2 h2 => by
      simp only [advance, List.length_tail] at h2; omega) (parse_binary_operation e .SUB (advance ts))
  | .ASTERISK => relax (fun ts2 h2 => by
      simp only [advance, List.length_tail] at h2; omega) (parse_binary_operation e .MUL (advance ts))
  | .SLASH => relax (fun ts2 h2 => by
      simp only [advance, List.length_tail] at h2; omega) (parse_binary_operation e .DIV (advance ts))
  | .PERCENT => relax (fun ts2 h2 => by
      simp only [advance, List.length_tail] at h2; omega) (parse_binary_operation e .MOD (advance ts))
  | _ => .ok (e, ⟨advance ts, by
      simp only [advance, List.length_tail]
      have := List.length_pos.mpr h
      omega⟩)
termination_by (ts.length, 0)
decreasing_by
  all_goals simp_wf
  all_goals apply Prod.Lex.left
  all_goals simp only [advance, List.length_tail]
  all_goals have := List.length_pos.mpr h
  all_goals omega

/-- parse_binary_operation (`parser.rs:108-121`): consume the operator token,
parse the complete rest of the expression as the right operand (this is what
makes the grammar right-associative), and build the binary node. -/
def parse_binary_operation (left : Expression) (operator : BinaryOperator) (ts : PState) :
    Except Errors (Expression × { ts2 : PState // ts2.length < ts.length }) :=
  match parse_expression (advance ts) with
  | .error e => .error e
  | .ok (right, ⟨ts2, h2⟩) =>
    .ok (.Binary left operator right, ⟨ts2, by simp only [advance, List.length_tail] at h2; omega⟩)
termination_by (ts.length, 2)
decreasing_by
  simp_wf
  rcases ts with _ | ⟨t, rest⟩
  · exact Prod.Lex.right _ (by omega)
  · apply Prod.Lex.left
    simp only [advance, List.tail_cons, List.length_cons]
    omega

/-- parse_grouped_expression (`parser.rs:123-132`): consume `(`, parse the
inner expression, then require the current token to be `)` — which is left
unconsumed here; the caller's `next_token()` consumes it.  A missing `)` is
`TokenInvalid` at the current (unmatched) token. -/
def parse_grouped_expression (ts : PState) (h : ts ≠ []) :
    Except Errors (Expression × { ts2 : PState // ts2.length < ts.length ∧ ts2 ≠ [] }) :=
  match parse_expression (advance ts) with
  | .error e => .error e
  | .ok (e, ⟨ts2, h2⟩) =>
    if hk : (current_token ts2).kind = .RPAREN then
      .ok (e, ⟨ts2, by
        constructor
        · simp only [advance, List.length_tail] at h2
          have := List.length_pos.mpr h
          omega
        · intro hnil
          rw [hnil] at hk
          simp [current_token, eof_token] at hk⟩)
    else .error (.TokenInvalid (current_token ts2))
termination_by (ts.length, 0)
decreasing_by
  simp_wf
  apply Prod.Lex.left
  simp only [advance, List.length_tail]
  have := List.length_pos.mpr h
  omega

end

/-- parse_const_assignment_statement (`parser.rs:61-78`): skip the `Const`
keyword, capture the identifier, require the lookahead to be the assignment
operator (`expect_next_token`; on failure the error wraps that lookahead
token, which is the token found where `=` was required), consume it, parse
the expression, and require the current token to be end-of-line — on failure
the error wraps the lookahead token `self.next_token`, one past the token at
which the violation occurs. -/
def parse_const_assignment_statement (ts : PState) :
    Except Errors (Statement × { ts2 : PState // ts2.length ≤ ts.length }) :=
  if (peek_token (advance ts)).kind = .ASSIGN then
    match parse_expression (advance (advance (advance ts))) with
    | .error e => .error e
    | .ok (expression, ⟨ts2, h2⟩) =>
      if (current_token ts2).kind = .EOL then
        .ok (.ConstAssignment (current_token (advance ts)).value expression,
          ⟨ts2, by simp only [advance, List.length_tail] at h2; omega⟩)
      else .error (.TokenInvalid (peek_token ts2))
  else .error (.TokenInvalid (peek_token (advance ts)))

/-- The argument loop of parse_print_statement (`parser.rs:142-149`): parse
an expression, push it, and repeat while the current token is a comma.  The
Rust loop does NOT consume the comma before repeating, so the next
`parse_expression` call starts at that very comma token — which is not a
valid start of an expression. -/
def parse_print_loop (ts : PState) (arguments : List Expression) :
    Except Errors (List Expression × { ts2 : PState // ts2.length ≤ ts.length }) :=
  match parse_expression ts with
  | .error e => .error e
  | .ok (e, ⟨ts2, h2⟩) =>
    if (current_token ts2).kind = .COMMA then
      relax (fun ts3 h3 => by omega) (parse_print_loop ts2 (arguments ++ [e]))
    else .ok (arguments ++ [e], ⟨ts2, Nat.le_of_lt h2⟩)
termination_by ts.length
decreasing_by simp_wf; omega

/-- parse_print_statement (`parser.rs:138-151`): skip the `Print` keyword and
run the comma loop starting with an empty argument list. -/
def parse_print_statement (ts : PState) :
    Except Errors (Statement × { ts2 : PState // ts2.length ≤ ts.length }) :=
  match parse_print_loop (advance ts) [] with
  | .error e => .error e
  | .ok (arguments, ⟨ts2, h2⟩) =>
    .ok (.Print arguments, ⟨ts2, by simp only [advance, List.length_tail] at h2; omega⟩)

/-- parse_statement (`parser.rs:50-59`): dispatch on the current token kind;
anything that is not the `Const` or `Print` keyword is an `Empty` statement
and consumes nothing. -/
def parse_statement (ts : PState) :
    Except Errors (Statement × { ts2 : PState // ts2.length ≤ ts.length }) :=
  match (current_token ts).kind with
  | .CONST => parse_const_assignment_statement ts
  | .PRINT => parse_print_statement ts
  | _ => .ok (.Empty, ⟨ts, Nat.le_refl _⟩)

/-- The `while current != EOF` loop of parse_program (`parser.rs:36-46`):
parse a statement, then require the current token to be end-of-line or
end-of-input — on violation the error wraps the lookahead token
`self.next_token`, one past the token at which the violation occurs — and
advance past the terminator. -/
def parse_program_loop (ts : PState) : Except Errors (List Statement) :=
  if hEOF : (current_token ts).kind = .EOF then .ok []
  else
    match parse_statement ts with
    | .error e => .error e
    | .ok (s, ⟨ts2, h2⟩) =>
      if (current_token ts2).kind = .EOL ∨ (current_token ts2).kind = .EOF then
        match parse_program_loop (advance ts2) with
        | .error e => .error e
        | .ok rest => .ok (s :: rest)
      else .error (.TokenInvalid (peek_token ts2))
termination_by ts.length
decreasing_by
  simp_wf
  simp only [advance, List.length_tail]
  have hne : ts ≠ [] := by
    intro hnil
    rw [hnil] at hEOF
    simp [current_token, eof_token] at hEOF
  have := List.length_pos.mpr hne
  omega

/-- parse_program (`parser.rs:33-48`): run the statement loop and wrap the
collected statements into a `Program`. -/
def parse_program (ts : PState) : Except Errors Program :=
  match parse_program_loop ts with
  | .error e => .error e
  | .ok statements => .ok ⟨statements⟩

/-- The five arithmetic operator token kinds and the AST operator each
produces in the continuation of `parse_expression` (`parser.rs:96-103`);
`none` for every other kind.  Used to quantify over operator chains. -/
def arith_op_kind : TokenKind → Option BinaryOperator
  | .PLUS => some .ADD
  | .MINUS => some .SUB
  | .ASTERISK => some .MUL
  | .SLASH => some .DIV
  | .PERCENT => some .MOD
  | _ => none

/-- Whether a binary operator is one of the five arithmetic operators the
parser can emit (`parser.rs:97-101`). -/
def is_arith_op : BinaryOperator → Bool
  | .ADD | .SUB | .MUL | .DIV | .MOD => true
  | _ => false

/-- Whether an expression tree contains no `Unary` node and no `Binary` node
with a comparison or boolean operator — i.e. only what `parse_expression`
can build. -/
def arith_only : Expression → Bool
  | .Identifier _ => true
  | .Integer _ => true
  | .Binary l o r => is_arith_op o && arith_only l && arith_only r
  | .Unary _ _ => false

/-- `arith_only` lifted to a statement's expressions. -/
def stmt_arith_only : Statement → Bool
  | .ConstAssignment _ e => arith_only e
  | .Print args => args.all arith_only
  | .Empty => true

/-- Condition under which evaluating an expression performs an integer
division or modulo with zero as the right operand, mirroring the evaluation
order of `execute_expression` (left fully, then right, then the dispatch on
the `(Integer, Integer)` value pair).  This formalises the phrase "whose
evaluation reaches an integer division or modulo with zero as the right
operand". -/
def reaches_div_by_zero (ex : Executor) : Expression → Bool
  | .Identifier _ => false
  | .Integer _ => false
  | .Binary l op r =>
    reaches_div_by_zero ex l ||
    (match execute_expression ex l with
     | .ok _ => reaches_div_by_zero ex r
     | .error _ => false) ||
    (match execute_expression ex l, execute_expression ex r with
     | .ok (.Integer _), .ok (.Integer b) => decide (b = 0) && (op == .DIV || op == .MOD)
     | _, _ => false)
  | .Unary _ e => reaches_div_by_zero ex e

end BSharp

deriving instance DecidableEq for Except

namespace BSharp

/-- Key lemma for C3: whenever evaluation of an expression performs a
division or modulo with zero as the right operand, `execute_expression`
aborts with a panic — not with a returned `RuntimeError`. -/
theorem reaches_div_by_zero_panics (ex : Executor) :
    ∀ e : Expression, reaches_div_by_zero ex e = true →
      execute_expression ex e = .error .Panic := by
  intro e
  induction e with
  | Identifier name => simp [reaches_div_by_zero]
  | Integer v => simp [reaches_div_by_zero]
  | Unary op e ih =>
    intro h
    simp only [reaches_div_by_zero] at h
    have := ih h
    cases op <;> simp [execute_expression, this]
  | Binary l op r ihl ihr =>
    intro h
    simp only [reaches_div_by_zero, Bool.or_eq_true] at h
    rcases h with (hl | hml) | hdz
    · have := ihl hl
      simp [execute_expression, this]
    · cases hL : execute_expression ex l with
      | error e1 => rw [hL] at hml; simp at hml
      | ok v1 =>
        rw [hL] at hml; simp at hml
        have := ihr hml
        simp [execute_expression, hL, this]
    · cases hL : execute_expression ex l with
      | error e1 => rw [hL] at hdz; simp at hdz
      | ok v1 =>
        cases hR : execute_expression ex r with
        | error e2 => rw [hL, hR] at hdz; simp at hdz
        | ok v2 =>
          rw [hL, hR] at hdz
          cases v1 <;> cases v2 <;> simp at hdz
          obtain ⟨rfl, hop⟩ := hdz
          rcases hop with rfl | rfl <;>
            simp [execute_expression, hL, hR]

/-- Claim C3 counterexample: `x = 7 / 0` does not fail with a `RuntimeError`
returned as an error result — the embedded run aborts with the panic marker
(Rust `7 / 0` on `i32` panics), which lies outside the range of the
`Fault.Error` injection of returned runtime errors.  The environment is
unchanged and `x` stays unbound. -/
theorem c3_counterexample :
    execute_statement Executor.new
      (.ConstAssignment "x" (.Binary (.Integer 7) .DIV (.Integer 0))) =
      (.error .Panic, Executor.new, []) ∧
    Fault.Panic ∉ Set.range Fault.Error := by
  constructor
  · rfl
  · rintro ⟨e, he⟩
    exact Fault.noConfusion he

/-- Claim C3 (amended): a binding statement `x = e` whose evaluation reaches
an integer division or modulo with zero as the right operand aborts with a
panic (Rust's `/` and `%` panic on a zero divisor; no error value is
returned), and the identifier is not bound — the environment is returned
unchanged and no output is produced. -/
theorem c3_amended_div_by_zero_panics (ex : Executor) (x : String) (e : Expression)
    (h : reaches_div_by_zero ex e = true) :
    execute_expression ex e = .error .Panic ∧
    execute_statement ex (.ConstAssignment x e) = (.error .Panic, ex, []) := by
  have hm := reaches_div_by_zero_panics ex e h
  exact ⟨hm, by simp [execute_statement, execute_const_assignment, hm]⟩

/-- Witness for the amended C3 at the spec's own test case `x = 7 / 0`. -/
theorem c3_witness :
    reaches_div_by_zero Executor.new (.Binary (.Integer 7) .DIV (.Integer 0)) = true ∧
    execute_statement Executor.new
      (.ConstAssignment "x" (.Binary (.Integer 7) .DIV (.Integer 0))) =
      (.error .Panic, Executor.new, []) := by
  have h : reaches_div_by_zero Executor.new
      (.Binary (.Integer 7) .DIV (.Integer 0)) = true := by decide
  exact ⟨h, (c3_amended_div_by_zero_panics Executor.new "x" _ h).2⟩

/-- Claim C7: for every environment and every identifier with no binding in
it, evaluating the Identifier expression returns `Undefined` as a successful
result, never a runtime error (`executor.rs:93-96`). -/
theorem c7_unbound_identifier_is_undefined (ex : Executor) (name : String)
    (h : get_variable ex name = none) :
    execute_expression ex (.Identifier name) = .ok .Undefined := by
  simp [execute_expression, h]

/-- Witness for C7 at the empty environment and the identifier "y". -/
theorem c7_witness :
    get_variable Executor.new "y" = none ∧
    execute_expression Executor.new (.Identifier "y") = .ok .Undefined :=
  ⟨rfl, c7_unbound_identifier_is_undefined Executor.new "y" rfl⟩

/-- Claim C4: on Integer operands the comparison operator labelled LE ("≤")
evaluates to `Boolean (l ≥ r)` and GE ("≥") to `Boolean (l ≤ r)` — the
inverted labelled semantics of `executor.rs:116-117` — while EQ, NE, GT, LT
produce the conventional results (`executor.rs:112-115`). -/
theorem c4_comparison_labels_inverted (ex : Executor) (el er : Expression) (l r : Int)
    (hl : execute_expression ex el = .ok (.Integer l))
    (hr : execute_expression ex er = .ok (.Integer r)) :
    execute_expression ex (.Binary el .LE er) = .ok (.Boolean (decide (l ≥ r))) ∧
    execute_expression ex (.Binary el .GE er) = .ok (.Boolean (decide (l ≤ r))) ∧
    execute_expression ex (.Binary el .EQ er) = .ok (.Boolean (decide (l = r))) ∧
    execute_expression ex (.Binary el .NE er) = .ok (.Boolean (decide (l ≠ r))) ∧
    execute_expression ex (.Binary el .GT er) = .ok (.Boolean (decide (l > r))) ∧
    execute_expression ex (.Binary el .LT er) = .ok (.Boolean (decide (l < r))) := by
  refine ⟨?_, ?_, ?_, ?_, ?_, ?_⟩ <;> simp [execute_expression, hl, hr]

/-- Witness for C4 at operands 3 and 2: the operator labelled "≤" answers
true (it computes 3 ≥ 2) and the operator labelled "≥" answers false. -/
theorem c4_witness :
    execute_expression Executor.new (.Integer 3) = .ok (.Integer 3) ∧
    execute_expression Executor.new (.Binary (.Integer 3) .LE (.Integer 2)) = .ok (.Boolean true) ∧
    execute_expression Executor.new (.Binary (.Integer 3) .GE (.Integer 2)) = .ok (.Boolean false) := by
  have h := c4_comparison_labels_inverted Executor.new (.Integer 3) (.Integer 2) 3 2 rfl rfl
  exact ⟨rfl, h.1.trans (by decide), h.2.1.trans (by decide)⟩

/-- Claim C5: on Boolean operands AND evaluates to `l && r` while both the
operator labelled OR and the operator labelled XOR evaluate to `l || r` —
XOR collapses to plain OR (`executor.rs:124-126`). -/
theorem c5_xor_collapses_to_or (ex : Executor) (el er : Expression) (l r : Bool)
    (hl : execute_expression ex el = .ok (.Boolean l))
    (hr : execute_expression ex er = .ok (.Boolean r)) :
    execute_expression ex (.Binary el .AND er) = .ok (.Boolean (l && r)) ∧
    execute_expression ex (.Binary el .OR er) = .ok (.Boolean (l || r)) ∧
    execute_expression ex (.Binary el .XOR er) = .ok (.Boolean (l || r)) := by
  refine ⟨?_, ?_, ?_⟩ <;> simp [execute_expression, hl, hr]

/-- Witness for C5 at operands true and false, the XOR-revealing case:
true XOR false would conventionally be true, and here OR and XOR agree
because both compute `l || r`; (true, true) would separate them, and indeed
the labelled XOR answers true there too. -/
theorem c5_witness :
    execute_expression Executor.new (.Binary (.Integer 1) .EQ (.Integer 1)) = .ok (.Boolean true) ∧
    execute_expression Executor.new (.Binary (.Integer 1) .NE (.Integer 1)) = .ok (.Boolean false) ∧
    execute_expression Executor.new
      (.Binary (.Binary (.Integer 1) .EQ (.Integer 1)) .XOR (.Binary (.Integer 1) .NE (.Integer 1))) =
      .ok (.Boolean true) := by
  have h := c5_xor_collapses_to_or Executor.new
    (.Binary (.Integer 1) .EQ (.Integer 1)) (.Binary (.Integer 1) .NE (.Integer 1))
    true false rfl rfl
  exact ⟨rfl, rfl, h.2.2⟩

/-- Claim C6: a binary expression whose operands evaluate to values of
different runtime types fails, for every operator, with
`TypeMismatch{expected: type_of(left), actual: type_of(right)}`
(`executor.rs:132-135`), and the enclosing binding statement leaves the
environment unchanged and binds nothing (`executor.rs:86` propagates before
`set_variable` is reached). -/
theorem c6_type_mismatch (ex : Executor) (x : String) (op : BinaryOperator)
    (el er : Expression) (vl vr : Object)
    (hl : execute_expression ex el = .ok vl)
    (hr : execute_expression ex er = .ok vr)
    (hne : vl.type_of ≠ vr.type_of) :
    execute_expression ex (.Binary el op er) =
      .error (.Error (.TypeMismatch vl.type_of vr.type_of)) ∧
    execute_statement ex (.ConstAssignment x (.Binary el op er)) =
      (.error (.Error (.TypeMismatch vl.type_of vr.type_of)), ex, []) := by
  have hmain : execute_expression ex (.Binary el op er) =
      .error (.Error (.TypeMismatch vl.type_of vr.type_of)) := by
    cases vl <;> cases vr <;>
      simp_all [execute_expression, Object.type_of]
  exact ⟨hmain, by simp [execute_statement, execute_const_assignment, hmain]⟩

/-- Witness for C6: `x = 3 + b` where `b` evaluates to `Boolean true`
(built as `1 = 1`, since the grammar has no boolean literal) fails with
expected Integer / actual Boolean and leaves the empty environment empty. -/
theorem c6_witness :
    execute_expression Executor.new (.Integer 3) = .ok (.Integer 3) ∧
    execute_expression Executor.new (.Binary (.Integer 1) .EQ (.Integer 1)) = .ok (.Boolean true) ∧
    Object.type_of (.Integer 3) ≠ Object.type_of (.Boolean true) ∧
    execute_statement Executor.new
      (.ConstAssignment "x" (.Binary (.Integer 3) .ADD (.Binary (.Integer 1) .EQ (.Integer 1)))) =
      (.error (.Error (.TypeMismatch .Integer .Boolean)), Executor.new, []) := by
  have h := c6_type_mismatch Executor.new "x" .ADD
    (.Integer 3) (.Binary (.Integer 1) .EQ (.Integer 1))
    (.Integer 3) (.Boolean true) rfl rfl (by decide)
  exact ⟨rfl, rfl, by decide, h.2⟩

/-- Claim C9: executing the binding `x = a` stores `Integer a` and a
subsequent lookup of `x` yields it; a later rebinding of the same identifier
replaces the stored value (`executor.rs:28-31`, `executor.rs:93-96`). -/
theorem c9_bind_then_lookup (ex : Executor) (x : String) (a b : Int)
    (ha : -(2 ^ 31) ≤ a ∧ a < 2 ^ 31) (hb : -(2 ^ 31) ≤ b ∧ b < 2 ^ 31) :
    (execute_statement ex (.ConstAssignment x (.Integer a))).1 = .ok (.Integer a) ∧
    execute_expression (execute_statement ex (.ConstAssignment x (.Integer a))).2.1
      (.Identifier x) = .ok (.Integer a) ∧
    execute_expression
      (execute_statement (execute_statement ex (.ConstAssignment x (.Integer a))).2.1
        (.ConstAssignment x (.Integer b))).2.1
      (.Identifier x) = .ok (.Integer b) := by
  refine ⟨rfl, ?_, ?_⟩ <;>
    simp [execute_statement, execute_const_assignment, execute_expression,
      set_variable, get_variable]

/-- Witness for C9 at x bound to 5 and rebound to 7 in the empty
environment. -/
theorem c9_witness :
    (-(2 ^ 31) ≤ (5 : Int) ∧ (5 : Int) < 2 ^ 31) ∧
    (-(2 ^ 31) ≤ (7 : Int) ∧ (7 : Int) < 2 ^ 31) ∧
    execute_expression (execute_statement Executor.new
      (.ConstAssignment "x" (.Integer 5))).2.1 (.Identifier "x") = .ok (.Integer 5) ∧
    execute_expression
      (execute_statement (execute_statement Executor.new
        (.ConstAssignment "x" (.Integer 5))).2.1
        (.ConstAssignment "x" (.Integer 7))).2.1
      (.Identifier "x") = .ok (.Integer 7) := by
  have h := c9_bind_then_lookup Executor.new "x" 5 7 (by decide) (by decide)
  exact ⟨by decide, by decide, h.2.1, h.2.2⟩

/-- Claim C2 (behaviour at the failing input): parsing the statement
`Print 1, 2, 3` fails with `TokenInvalid` at the first comma token — the
argument loop (`parser.rs:142-149`) checks for a comma to continue but never
consumes it, so the next `parse_expression` call starts at the comma, which
is not a valid start of an expression.  A single-argument print does parse,
and the executor's print dispatch by itself emits one line per argument in
order and returns `Undefined`, so the defect is exactly the missing
`next_token()` in the comma branch. -/
theorem c2_multi_argument_print_fails_to_parse :
    parse_program [⟨.PRINT, "Print"⟩, ⟨.INT, "1"⟩, ⟨.COMMA, ","⟩, ⟨.INT, "2"⟩,
      ⟨.COMMA, ","⟩, ⟨.INT, "3"⟩, ⟨.EOL, "\n"⟩, ⟨.EOF, ""⟩] =
      .error (.TokenInvalid ⟨.COMMA, ","⟩) ∧
    parse_program [⟨.PRINT, "Print"⟩, ⟨.INT, "1"⟩, ⟨.EOL, "\n"⟩, ⟨.EOF, ""⟩] =
      .ok ⟨[.Print [.Integer 1]]⟩ ∧
    execute Executor.new ⟨[.Print [.Integer 1, .Integer 2, .Integer 3]]⟩ =
      (.ok .Undefined, Executor.new, ["1", "2", "3"]) := by
  have h1 : parse_integer "1" = some 1 := by decide
  refine ⟨?_, ?_, rfl⟩
  · simp [parse_program, parse_program_loop, parse_statement, parse_print_statement,
      parse_print_loop, parse_expression, parse_expression_operator, relax,
      current_token, peek_token, advance, eof_token, h1]
  · simp [parse_program, parse_program_loop, parse_statement, parse_print_statement,
      parse_print_loop, parse_expression, parse_expression_operator, relax,
      current_token, peek_token, advance, eof_token, h1]

/-- Claim C1: the expression grammar is right-associative and
precedence-flat.  For every chain `a OP1 b OP2 c` of integer literals joined
by arithmetic operators without parentheses, the parsed binding statement
carries the tree `Binary(a, OP1, Binary(b, OP2, c))` — the right operand of
`OP1` is the complete rest of the expression (`parser.rs:108-121`).  In
particular, parsing and evaluating `x = 20 - 3 - 2` binds `x` to
`Integer 19` (`20 - (3 - 2)`), not 15. -/
theorem c1_right_associative_chains (sa sb sc va vb : String) (a b c : Int)
    (k1 k2 : TokenKind) (o1 o2 : BinaryOperator)
    (ha : parse_integer sa = some a) (hb : parse_integer sb = some b)
    (hc : parse_integer sc = some c)
    (hk1 : arith_op_kind k1 = some o1) (hk2 : arith_op_kind k2 = some o2) :
    parse_program [⟨.CONST, "Const"⟩, ⟨.IDENT, "x"⟩, ⟨.ASSIGN, "="⟩, ⟨.INT, sa⟩,
      ⟨k1, va⟩, ⟨.INT, sb⟩, ⟨k2, vb⟩, ⟨.INT, sc⟩, ⟨.EOL, "\n"⟩, ⟨.EOF, ""⟩] =
      .ok ⟨[.ConstAssignment "x"
        (.Binary (.Integer a) o1 (.Binary (.Integer b) o2 (.Integer c)))]⟩ ∧
    (match parse_program [⟨.CONST, "Const"⟩, ⟨.IDENT, "x"⟩, ⟨.ASSIGN, "="⟩, ⟨.INT, "20"⟩,
        ⟨.MINUS, "-"⟩, ⟨.INT, "3"⟩, ⟨.MINUS, "-"⟩, ⟨.INT, "2"⟩, ⟨.EOL, "\n"⟩, ⟨.EOF, ""⟩] with
      | .ok p => get_variable (execute Executor.new p).2.1 "x"
      | .error _ => none) = some (.Integer 19) := by
  constructor
  · cases k1 <;> simp [arith_op_kind] at hk1 <;> subst hk1 <;>
      (cases k2 <;> simp [arith_op_kind] at hk2 <;> subst hk2 <;>
        simp [parse_program, parse_program_loop, parse_statement,
          parse_const_assignment_statement, parse_expression,
          parse_expression_operator, parse_binary_operation, relax,
          current_token, peek_token, advance, eof_token, ha, hb, hc])
  · have h20 : parse_integer "20" = some 20 := by decide
    have h3 : parse_integer "3" = some 3 := by decide
    have h2 : parse_integer "2" = some 2 := by decide
    simp [parse_program, parse_program_loop, parse_statement,
      parse_const_assignment_statement, parse_expression,
      parse_expression_operator, parse_binary_operation, relax,
      current_token, peek_token, advance, eof_token, h20, h3, h2,
      execute, execute_statements, execute_statement, execute_const_assignment,
      execute_expression, set_variable, get_variable, wrap32]

/-- Witness for C1 at the chain `20 - 3 - 2`: both hypotheses hold at the
concrete lexemes and the parse yields the right-associated tree. -/
theorem c1_witness :
    parse_integer "20" = some 20 ∧ arith_op_kind .MINUS = some .SUB ∧
    parse_program [⟨.CONST, "Const"⟩, ⟨.IDENT, "x"⟩, ⟨.ASSIGN, "="⟩, ⟨.INT, "20"⟩,
      ⟨.MINUS, "-"⟩, ⟨.INT, "3"⟩, ⟨.MINUS, "-"⟩, ⟨.INT, "2"⟩, ⟨.EOL, "\n"⟩, ⟨.EOF, ""⟩] =
      .ok ⟨[.ConstAssignment "x"
        (.Binary (.Integer 20) .SUB (.Binary (.Integer 3) .SUB (.Integer 2)))]⟩ := by
  refine ⟨by decide, rfl, ?_⟩
  exact (c1_right_associative_chains "20" "3" "2" "-" "-" 20 3 2 .MINUS .MINUS .SUB .SUB
    (by decide) (by decide) (by decide) rfl rfl).1

/-- Claim C8 counterexample: in `Const x = 1 2 3`, the statement fails to
terminate at the token `2` (that is where an end-of-line was required), but
the returned `ParseError` wraps the lookahead token `3` — not the offending
token `2`.  So not every `ParseError` wraps the token at which the violation
occurs. -/
theorem c8_counterexample :
    parse_program [⟨.CONST, "Const"⟩, ⟨.IDENT, "x"⟩, ⟨.ASSIGN, "="⟩, ⟨.INT, "1"⟩,
      ⟨.INT, "2"⟩, ⟨.INT, "3"⟩, ⟨.EOL, "\n"⟩, ⟨.EOF, ""⟩] =
      .error (.TokenInvalid ⟨.INT, "3"⟩) ∧
    (Token.mk .INT "3") ≠ (Token.mk .INT "2") := by
  have h1 : parse_integer "1" = some 1 := by decide
  refine ⟨?_, by decide⟩
  simp [parse_program, parse_program_loop, parse_statement,
    parse_const_assignment_statement, parse_expression, parse_expression_operator,
    relax, current_token, peek_token, advance, eof_token, h1]

/-- Claim C8 (amended): the `ParseError` of an unexpected token starting an
expression wraps that (current) token; the `ParseError` of an unterminated
parenthesized group wraps the current token found where `)` was required;
the `ParseError` of a missing assignment operator wraps the lookahead token
found where `=` was required (the offending token); but the two
end-of-line/end-of-input terminator checks — after a statement in
`parse_program` and after a const-assignment's expression — wrap the
parser's lookahead token `self.next_token`, which is one past the token at
which the violation occurs. -/
theorem c8_amended_error_tokens :
    (∀ ts : PState, (current_token ts).kind ≠ .IDENT →
      (current_token ts).kind ≠ .INT → (current_token ts).kind ≠ .LPAREN →
      parse_expression ts = .error (.TokenInvalid (current_token ts))) ∧
    (∀ (ts : PState) (h : ts ≠ []) (e : Expression) (ts2 : PState)
        (hb : ts2.length < (advance ts).length),
      parse_expression (advance ts) = .ok (e, ⟨ts2, hb⟩) →
      (current_token ts2).kind ≠ .RPAREN →
      parse_grouped_expression ts h = .error (.TokenInvalid (current_token ts2))) ∧
    (∀ ts : PState, (peek_token (advance ts)).kind ≠ .ASSIGN →
      parse_const_assignment_statement ts =
        .error (.TokenInvalid (peek_token (advance ts)))) ∧
    (∀ (ts : PState) (e : Expression) (ts2 : PState)
        (hb : ts2.length < (advance (advance (advance ts))).length),
      (peek_token (advance ts)).kind = .ASSIGN →
      parse_expression (advance (advance (advance ts))) = .ok (e, ⟨ts2, hb⟩) →
      (current_token ts2).kind ≠ .EOL →
      parse_const_assignment_statement ts = .error (.TokenInvalid (peek_token ts2))) ∧
    (∀ (ts : PState) (s : Statement) (ts2 : PState) (hb : ts2.length ≤ ts.length),
      (current_token ts).kind ≠ .EOF →
      parse_statement ts = .ok (s, ⟨ts2, hb⟩) →
      (current_token ts2).kind ≠ .EOL → (current_token ts2).kind ≠ .EOF →
      parse_program_loop ts = .error (.TokenInvalid (peek_token ts2))) := by
  refine ⟨?_, ?_, ?_, ?_, ?_⟩
  · intro ts h1 h2 h3
    rcases ts with _ | ⟨t, rest⟩
    · simp [parse_expression, current_token, eof_token]
    · rcases t with ⟨k, v⟩
      cases k <;> simp_all [parse_expression, current_token]
  · intro ts h e ts2 hb heq hne
    simp [parse_grouped_expression, heq, hne]
  · intro ts hne
    simp [parse_const_assignment_statement, hne]
  · intro ts e ts2 hb hassign heq hne
    simp [parse_const_assignment_statement, hassign, heq, hne]
  · intro ts s ts2 hb hEOF heq hne1 hne2
    simp [parse_program_loop, hEOF, heq, hne1, hne2]

/-- Witness for the amended C8, exercising all five cases on concrete
streams: an expression starting with `)`, the group `( 1` missing its `)`,
`Const x x` missing `=`, `Const x = 1 2 3` with the terminator error wrapping
the lookahead `3`, and the bare statement `1 2` with the terminator error
wrapping the lookahead `2`. -/
theorem c8_amended_witness :
    parse_expression [⟨.RPAREN, ")"⟩] = .error (.TokenInvalid ⟨.RPAREN, ")"⟩) ∧
    parse_grouped_expression [⟨.LPAREN, "("⟩, ⟨.INT, "1"⟩] (by simp) =
      .error (.TokenInvalid ⟨.EOF, ""⟩) ∧
    parse_const_assignment_statement [⟨.CONST, "Const"⟩, ⟨.IDENT, "x"⟩, ⟨.IDENT, "x"⟩] =
      .error (.TokenInvalid ⟨.IDENT, "x"⟩) ∧
    parse_const_assignment_statement [⟨.CONST, "Const"⟩, ⟨.IDENT, "x"⟩, ⟨.ASSIGN, "="⟩,
      ⟨.INT, "1"⟩, ⟨.INT, "2"⟩, ⟨.INT, "3"⟩, ⟨.EOL, "\n"⟩, ⟨.EOF, ""⟩] =
      .error (.TokenInvalid ⟨.INT, "3"⟩) ∧
    parse_program_loop [⟨.INT, "1"⟩, ⟨.INT, "2"⟩, ⟨.EOL, "\n"⟩, ⟨.EOF, ""⟩] =
      .error (.TokenInvalid ⟨.INT, "2"⟩) := by
  have h1 : parse_integer "1" = some 1 := by decide
  have hpe1 : parse_expression [(⟨.INT, "1"⟩ : Token), ⟨.INT, "2"⟩, ⟨.INT, "3"⟩,
      ⟨.EOL, "\n"⟩, ⟨.EOF, ""⟩] = .ok (.Integer 1,
        ⟨[⟨.INT, "2"⟩, ⟨.INT, "3"⟩, ⟨.EOL, "\n"⟩, ⟨.EOF, ""⟩], by simp⟩) := by
    simp [parse_expression, parse_expression_operator, relax,
      current_token, advance, h1]
  have hpe2 : parse_expression [(⟨.INT, "1"⟩ : Token), ⟨.INT, "2"⟩,
      ⟨.EOL, "\n"⟩, ⟨.EOF, ""⟩] = .ok (.Integer 1,
        ⟨[⟨.INT, "2"⟩, ⟨.EOL, "\n"⟩, ⟨.EOF, ""⟩], by simp⟩) := by
    simp [parse_expression, parse_expression_operator, relax,
      current_token, advance, h1]
  have hpe3 : parse_expression (advance [(⟨.LPAREN, "("⟩ : Token), ⟨.INT, "1"⟩]) =
      .ok (.Integer 1, ⟨[], by simp [advance]⟩) := by
    simp [parse_expression, parse_expression_operator, relax,
      current_token, advance, eof_token, h1]
  have hps : parse_statement [(⟨.INT, "1"⟩ : Token), ⟨.INT, "2"⟩,
      ⟨.EOL, "\n"⟩, ⟨.EOF, ""⟩] = .ok (.Empty,
        ⟨[⟨.INT, "1"⟩, ⟨.INT, "2"⟩, ⟨.EOL, "\n"⟩, ⟨.EOF, ""⟩], by simp⟩) := by
    simp [parse_statement, current_token]
  refine ⟨?_, ?_, ?_, ?_, ?_⟩
  · exact c8_amended_error_tokens.1 [⟨.RPAREN, ")"⟩] (by decide) (by decide) (by decide)
  · have := c8_amended_error_tokens.2.1 [⟨.LPAREN, "("⟩, ⟨.INT, "1"⟩] (by simp)
      (.Integer 1) [] (by simp [advance]) hpe3 (by decide)
    simpa [current_token, eof_token] using this
  · exact c8_amended_error_tokens.2.2.1 [⟨.CONST, "Const"⟩, ⟨.IDENT, "x"⟩, ⟨.IDENT, "x"⟩]
      (by decide)
  · have := c8_amended_error_tokens.2.2.2.1 [⟨.CONST, "Const"⟩, ⟨.IDENT, "x"⟩,
      ⟨.ASSIGN, "="⟩, ⟨.INT, "1"⟩, ⟨.INT, "2"⟩, ⟨.INT, "3"⟩, ⟨.EOL, "\n"⟩, ⟨.EOF, ""⟩]
      (.Integer 1) [⟨.INT, "2"⟩, ⟨.INT, "3"⟩, ⟨.EOL, "\n"⟩, ⟨.EOF, ""⟩]
      (by simp [advance]) (by decide) (by simpa [advance] using hpe1) (by decide)
    simpa [peek_token] using this
  · have := c8_amended_error_tokens.2.2.2.2 [⟨.INT, "1"⟩, ⟨.INT, "2"⟩,
      ⟨.EOL, "\n"⟩, ⟨.EOF, ""⟩] .Empty
      [⟨.INT, "1"⟩, ⟨.INT, "2"⟩, ⟨.EOL, "\n"⟩, ⟨.EOF, ""⟩]
      (by simp) (by decide) hps (by decide) (by decide)
    simpa [peek_token] using this

/-- Joint invariant of the expression parser: every successfully parsed
expression satisfies `arith_only` — the parser builds `Binary` nodes only
with the five arithmetic operators and never builds a `Unary` node
(the unary arm of `parse_expression` is commented out in `parser.rs:86-92`).
Proved by strong induction on the stream length, following the parser's own
termination measure. -/
theorem parse_expression_arith (n : Nat) : ∀ ts : PState, ts.length ≤ n →
    (∀ (e : Expression) (s : { ts2 : PState // ts2.length < ts.length }),
      parse_expression ts = .ok (e, s) → arith_only e = true) ∧
    (∀ (e0 : Expression) (h : ts ≠ []) (e : Expression)
        (s : { ts2 : PState // ts2.length < ts.length }),
      arith_only e0 = true →
      parse_expression_operator e0 ts h = .ok (e, s) → arith_only e = true) ∧
    (∀ (l : Expression) (op : BinaryOperator) (e : Expression)
        (s : { ts2 : PState // ts2.length < ts.length }),
      arith_only l = true → is_arith_op op = true →
      parse_binary_operation l op ts = .ok (e, s) → arith_only e = true) ∧
    (∀ (h : ts ≠ []) (e : Expression)
        (s : { ts2 : PState // ts2.length < ts.length ∧ ts2 ≠ [] }),
      parse_grouped_expression ts h = .ok (e, s) → arith_only e = true) := by
  induction n using Nat.strong_induction_on with
  | _ n IH =>
  intro ts hts
  have hBO : ∀ (l : Expression) (op : BinaryOperator) (e : Expression)
      (s : { ts2 : PState // ts2.length < ts.length }),
      arith_only l = true → is_arith_op op = true →
      parse_binary_operation l op ts = .ok (e, s) → arith_only e = true := by
    intro l op e s hl hop heq
    simp only [parse_binary_operation] at heq
    cases hpe : parse_expression (advance ts) with
    | error er => rw [hpe] at heq; simp at heq
    | ok pr =>
      obtain ⟨right, ⟨ts2, h2⟩⟩ := pr
      rw [hpe] at heq
      simp only [Except.ok.injEq, Prod.mk.injEq] at heq
      obtain ⟨rfl, -⟩ := heq
      simp only [arith_only, Bool.and_eq_true]
      refine ⟨⟨hop, hl⟩, ?_⟩
      rcases ts with _ | ⟨t, rest⟩
      · simp only [advance, List.tail_nil] at hpe
        simp [parse_expression] at hpe
      · have hlt : (advance (t :: rest)).length < n := by
          simp only [advance, List.tail_cons]
          simp only [List.length_cons] at hts
          omega
        exact (IH _ hlt _ (Nat.le_refl _)).1 right ⟨ts2, h2⟩ hpe
  have hG : ∀ (h : ts ≠ []) (e : Expression)
      (s : { ts2 : PState // ts2.length < ts.length ∧ ts2 ≠ [] }),
      parse_grouped_expression ts h = .ok (e, s) → arith_only e = true := by
    intro h e s heq
    simp only [parse_grouped_expression] at heq
    split at heq
    · exact absurd heq (by simp)
    · rename_i e1 ts2 h2 hpe
      split at heq
      · simp only [Except.ok.injEq, Prod.mk.injEq] at heq
        obtain ⟨rfl, -⟩ := heq
        have hlt : (advance ts).length < n := by
          have := List.length_pos.mpr h
          simp only [advance, List.length_tail]
          omega
        exact (IH _ hlt _ (Nat.le_refl _)).1 e1 ⟨ts2, h2⟩ hpe
      · exact absurd heq (by simp)
  have hOp : ∀ (e0 : Expression) (h : ts ≠ []) (e : Expression)
      (s : { ts2 : PState // ts2.length < ts.length }),
      arith_only e0 = true →
      parse_expression_operator e0 ts h = .ok (e, s) → arith_only e = true := by
    intro e0 h e s he0 heq
    have hbranch : ∀ (op : BinaryOperator)
        (pf : ∀ ts2 : PState, ts2.length < (advance ts).length → ts2.length < ts.length)
        (e : Expression) (s : { ts2 : PState // ts2.length < ts.length }),
        is_arith_op op = true →
        relax pf (parse_binary_operation e0 op (advance ts)) = .ok (e, s) →
        arith_only e = true := by
      intro op pf e s hop heq
      cases hbo : parse_binary_operation e0 op (advance ts) with
      | error er => rw [hbo] at heq; simp [relax] at heq
      | ok pr =>
        obtain ⟨e2, ⟨ts3, h3⟩⟩ := pr
        rw [hbo] at heq
        simp only [relax, Except.ok.injEq, Prod.mk.injEq] at heq
        obtain ⟨rfl, -⟩ := heq
        have hlt : (advance ts).length < n := by
          have := List.length_pos.mpr h
          simp only [advance, List.length_tail]
          omega
        exact (IH _ hlt _ (Nat.le_refl _)).2.2.1 e0 op e2 ⟨ts3, h3⟩ he0 hop hbo
    simp only [parse_expression_operator] at heq
    split at heq
    · exact hbranch _ _ _ _ (by decide) heq
    · exact hbranch _ _ _ _ (by decide) heq
    · exact hbranch _ _ _ _ (by decide) heq
    · exact hbranch _ _ _ _ (by decide) heq
    · exact hbranch _ _ _ _ (by decide) heq
    · simp only [Except.ok.injEq, Prod.mk.injEq] at heq
      obtain ⟨rfl, -⟩ := heq
      exact he0
  have hE : ∀ (e : Expression) (s : { ts2 : PState // ts2.length < ts.length }),
      parse_expression ts = .ok (e, s) → arith_only e = true := by
    intro e s heq
    cases hts0 : ts with
    | nil =>
      subst hts0
      simp [parse_expression] at heq
    | cons t rest =>
      subst hts0
      simp only [parse_expression] at heq
      split at heq
      · exact hOp (.Identifier t.value) (by simp) e s rfl heq
      · split at heq
        · rename_i n0 hpi
          exact hOp (.Integer n0) (by simp) e s rfl heq
        · exact absurd heq (by simp)
      · split at heq
        · exact absurd heq (by simp)
        · rename_i e1 ts1 h1 hne hg
          have he1 : arith_only e1 = true := hG _ e1 ⟨ts1, ⟨h1, hne⟩⟩ hg
          cases hpo : parse_expression_operator e1 ts1 hne with
          | error er => rw [hpo] at heq; simp [relax] at heq
          | ok pr2 =>
            obtain ⟨e2, ⟨ts3, h3⟩⟩ := pr2
            rw [hpo] at heq
            simp only [relax, Except.ok.injEq, Prod.mk.injEq] at heq
            obtain ⟨rfl, -⟩ := heq
            have hlt : ts1.length < n := by
              simp only [List.length_cons] at h1 hts
              omega
            exact (IH _ hlt _ (Nat.le_refl _)).2.1 e1 hne e2 ⟨ts3, h3⟩ he1 hpo
      · exact absurd heq (by simp)
  exact ⟨hE, hOp, hBO, hG⟩

/-- The print-argument loop only accumulates `arith_only` expressions. -/
theorem parse_print_loop_arith (n : Nat) : ∀ ts : PState, ts.length ≤ n →
    ∀ (args out : List Expression) (s : { ts2 : PState // ts2.length ≤ ts.length }),
      args.all arith_only = true →
      parse_print_loop ts args = .ok (out, s) → out.all arith_only = true := by
  induction n using Nat.strong_induction_on with
  | _ n IH =>
  intro ts hts args out s hargs heq
  rw [parse_print_loop.eq_def] at heq
  split at heq
  · exact absurd heq (by simp)
  · rename_i e1 ts2 h2 hpe
    have he1 : arith_only e1 = true :=
      (parse_expression_arith ts.length ts (Nat.le_refl _)).1 e1 ⟨ts2, h2⟩ hpe
    split at heq
    · cases hpl : parse_print_loop ts2 (args ++ [e1]) with
      | error er => rw [hpl] at heq; simp [relax] at heq
      | ok pr =>
        obtain ⟨out2, ⟨ts3, h3⟩⟩ := pr
        rw [hpl] at heq
        simp only [relax, Except.ok.injEq, Prod.mk.injEq] at heq
        obtain ⟨rfl, -⟩ := heq
        have hargs2 : (args ++ [e1]).all arith_only = true := by
          simp [List.all_append, hargs, he1]
        have hlt : ts2.length < n := by omega
        exact IH _ hlt ts2 (Nat.le_refl _) (args ++ [e1]) out2 ⟨ts3, h3⟩ hargs2 hpl
    · simp only [Except.ok.injEq, Prod.mk.injEq] at heq
      obtain ⟨rfl, -⟩ := heq
      simp [List.all_append, hargs, he1]

/-- Every successfully parsed statement satisfies `stmt_arith_only`. -/
theorem parse_statement_arith : ∀ (ts : PState) (st : Statement)
    (s : { ts2 : PState // ts2.length ≤ ts.length }),
    parse_statement ts = .ok (st, s) → stmt_arith_only st = true := by
  intro ts st s heq
  simp only [parse_statement] at heq
  split at heq
  · simp only [parse_const_assignment_statement] at heq
    split at heq
    · split at heq
      · exact absurd heq (by simp)
      · rename_i e1 ts2 h2 hpe
        split at heq
        · simp only [Except.ok.injEq, Prod.mk.injEq] at heq
          obtain ⟨rfl, -⟩ := heq
          simpa [stmt_arith_only] using
            (parse_expression_arith _ _ (Nat.le_refl _)).1 e1 ⟨ts2, h2⟩ hpe
        · exact absurd heq (by simp)
    · exact absurd heq (by simp)
  · simp only [parse_print_statement] at heq
    split at heq
    · exact absurd heq (by simp)
    · rename_i out ts2 h2 hpl
      simp only [Except.ok.injEq, Prod.mk.injEq] at heq
      obtain ⟨rfl, -⟩ := heq
      simpa [stmt_arith_only] using
        parse_print_loop_arith (advance ts).length (advance ts) (Nat.le_refl _)
          [] out ⟨ts2, h2⟩ rfl hpl
  · simp only [Except.ok.injEq, Prod.mk.injEq] at heq
    obtain ⟨rfl, -⟩ := heq
    rfl

/-- Every statement list produced by the parse_program loop satisfies the
invariant. -/
theorem parse_program_loop_arith (n : Nat) : ∀ ts : PState, ts.length ≤ n →
    ∀ sts : List Statement, parse_program_loop ts = .ok sts →
      sts.all stmt_arith_only = true := by
  induction n using Nat.strong_induction_on with
  | _ n IH =>
  intro ts hts sts heq
  rw [parse_program_loop.eq_def] at heq
  split at heq
  · simp only [Except.ok.injEq] at heq
    subst heq
    rfl
  · rename_i hEOF
    split at heq
    · exact absurd heq (by simp)
    · rename_i s1 ts2 h2 hps
      split at heq
      · split at heq
        · exact absurd heq (by simp)
        · rename_i rest hrec
          simp only [Except.ok.injEq] at heq
          subst heq
          have hs1 := parse_statement_arith ts s1 ⟨ts2, h2⟩ hps
          have hlt : (advance ts2).length < n := by
            have hne : ts ≠ [] := by
              intro hnil
              rw [hnil] at hEOF
              simp [current_token, eof_token] at hEOF
            have := List.length_pos.mpr hne
            simp only [advance, List.length_tail]
            omega
          have hrest := IH _ hlt _ (Nat.le_refl _) rest hrec
          simp [List.all_cons, hs1, hrest]
      · exact absurd heq (by simp)

/-- Claim C10: a Program returned successfully by parse_program contains no
`Unary` expression and no `Binary` expression with a comparison or boolean
operator — every statement satisfies `stmt_arith_only`, i.e. the parser only
emits `Binary` nodes with the five arithmetic operators, so the evaluator's
comparison, boolean and unary branches are unreachable from parsed
programs. -/
theorem c10_parser_emits_arith_only (ts : PState) (p : Program)
    (h : parse_program ts = .ok p) :
    p.statements.all stmt_arith_only = true := by
  simp only [parse_program] at h
  split at h
  · exact absurd h (by simp)
  · rename_i sts hloop
    simp only [Except.ok.injEq] at h
    subst h
    simpa using parse_program_loop_arith ts.length ts (Nat.le_refl _) sts hloop

/-- Witness for C10 on the parsed program `Const x = 1 + 2`. -/
theorem c10_witness :
    parse_program [⟨.CONST, "Const"⟩, ⟨.IDENT, "x"⟩, ⟨.ASSIGN, "="⟩, ⟨.INT, "1"⟩,
      ⟨.PLUS, "+"⟩, ⟨.INT, "2"⟩, ⟨.EOL, "\n"⟩, ⟨.EOF, ""⟩] =
      .ok ⟨[.ConstAssignment "x" (.Binary (.Integer 1) .ADD (.Integer 2))]⟩ ∧
    (Program.mk [.ConstAssignment "x"
      (.Binary (.Integer 1) .ADD (.Integer 2))]).statements.all stmt_arith_only = true := by
  have h1 : parse_integer "1" = some 1 := by decide
  have h2 : parse_integer "2" = some 2 := by decide
  have hp : parse_program [(⟨.CONST, "Const"⟩ : Token), ⟨.IDENT, "x"⟩, ⟨.ASSIGN, "="⟩,
      ⟨.INT, "1"⟩, ⟨.PLUS, "+"⟩, ⟨.INT, "2"⟩, ⟨.EOL, "\n"⟩, ⟨.EOF, ""⟩] =
      .ok ⟨[.ConstAssignment "x" (.Binary (.Integer 1) .ADD (.Integer 2))]⟩ := by
    simp [parse_program, parse_program_loop, parse_statement,
      parse_const_assignment_statement, parse_expression, parse_expression_operator,
      parse_binary_operation, relax, current_token, peek_token, advance, eof_token, h1, h2]
  exact ⟨hp, c10_parser_emits_arith_only _ _ hp⟩

end BSharp
